import Mathlib

/-!
Shallow embedding of the weekly replenishment pipeline of src/app.py:
the agent classes ForecastAgent, ReplenishmentAgent and BudgetAgent and
their composition in run_agent_pipeline.  Python floats are modelled as
rationals, Python ints as integers, Python dictionaries keyed by product
id as association lists (a later insertion overwrites an earlier one) or
as functions into Option.  The sales list of a product is ordered most
recent first, as produced by DataAgent.collect_state (ORDER BY
date(week_start_date) DESC).  The builtin round of Python rounds half to
even; sorted is a stable sort, modelled by List.mergeSort, which is
proved stable in core.
-/

/-- Rounding of Python's builtin round(x): round half to even. -/
def roundHalfEven (q : ℚ) : ℤ :=
  let f := ⌊q⌋
  if q - (f : ℚ) < 1/2 then f
  else if q - (f : ℚ) > 1/2 then f + 1
  else if f % 2 = 0 then f else f + 1

/-- Python round(x, 2): round half to even at two decimal places. -/
def pyRound2 (q : ℚ) : ℚ := ((roundHalfEven (q * 100) : ℤ) : ℚ) / 100

/-- Python fixed-point formatting with one digit after the point, as in the
f-string piece {value:.1f} used by ReplenishmentAgent.build_plan: round half
to even at one decimal, print sign, integer part, point, one digit. -/
def fmtFixed (q : ℚ) : String :=
  let n := roundHalfEven (q * 10)
  (if q < 0 then "-" else "") ++ toString (n.natAbs / 10) ++ "." ++ toString (n.natAbs % 10)

/-- Modelled from the spec: the same fixed-point formatting but with the two
digits after the point that the specification ascribes to the rationale. -/
def fmtFixedTwo (q : ℚ) : String :=
  let n := roundHalfEven (q * 100)
  (if q < 0 then "-" else "") ++ toString (n.natAbs / 100) ++ "."
    ++ toString (n.natAbs % 100 / 10) ++ toString (n.natAbs % 10)

/-- Number of digit characters at the very end of a string; for the output of
a fixed-point formatter this is the number of digits after the point. -/
def fracDigits (s : String) : ℕ :=
  (s.data.reverse.takeWhile (fun c => c.isDigit)).length

/-- Fixed rationale of the slow-moving branch of build_plan. -/
def slowMovingReason : String :=
  "Slow-moving item (avg < 1/week) with stock available – no order."

/-- Rationale of the ordinary branch of build_plan (one decimal place). -/
def mkReason (avg : ℚ) (cur : ℤ) (req : ℚ) : String :=
  "Avg sales ≈ " ++ fmtFixed avg ++ "/week, current stock = " ++ toString cur
    ++ ", target stock ≈ " ++ fmtFixed req ++ "."

/-- Modelled from the spec: the rationale as the specification states it,
with two-decimal precision for forecast and target stock. -/
def reasonTwoDec (avg : ℚ) (cur : ℤ) (req : ℚ) : String :=
  "Avg sales ≈ " ++ fmtFixedTwo avg ++ "/week, current stock = " ++ toString cur
    ++ ", target stock ≈ " ++ fmtFixedTwo req ++ "."

/-- Row of the products table (active products only reach the pipeline). -/
structure Product where
  product_id : ℕ
  name : String
  category : String
  cost_price : ℚ
  selling_price : ℚ
  min_stock : ℤ
  max_stock : ℤ
  lead_time_days : ℤ
deriving DecidableEq

/-- State snapshot as assembled by DataAgent.collect_state: the active
product list, the stock dictionary and the per-product sales quantities,
most recent week first. -/
structure State where
  products : List Product
  stock_by_product : ℕ → Option ℤ
  sales_by_product : ℕ → List ℤ

/-- Per-product dictionary produced by ReplenishmentAgent.build_plan. -/
structure PlanLine where
  product_id : ℕ
  name : String
  avg_weekly_sales : ℚ
  current_stock : ℤ
  forecast_next_week : ℚ
  suggested_order_qty : ℕ
  reason : String
deriving DecidableEq

/-- Plan line after BudgetAgent.apply added its keys unit_cost, line_cost
and budget_note (budget_note is none while not yet stamped). -/
structure BudgetLine extends PlanLine where
  unit_cost : ℚ
  line_cost : ℚ
  budget_note : Option String
deriving DecidableEq

/-- Python dict get d.get(k, v0) for a dict built by inserting the pairs of
the list in order; a later pair overwrites an earlier one with the same key,
hence the first match in the reversed list. -/
def dictGetD (d : List (ℕ × ℚ)) (k : ℕ) (v0 : ℚ) : ℚ :=
  match d.reverse.find? (fun kv => kv.1 == k) with
  | some kv => kv.2
  | none => v0

/-- ForecastAgent._avg_sales: 0.0 on empty history, otherwise the mean of
qty_sold over the first max_weeks rows. -/
def ForecastAgent.avg_sales (max_weeks : ℕ) (rows : List ℤ) : ℚ :=
  if rows = [] then 0
  else
    let considered := rows.take max_weeks
    ((considered.sum : ℤ) : ℚ) / (considered.length : ℚ)

/-- ForecastAgent.forecast: dictionary from product id to average sales. -/
def ForecastAgent.forecast (max_weeks : ℕ) (state : State) : List (ℕ × ℚ) :=
  state.products.map
    (fun p => (p.product_id, ForecastAgent.avg_sales max_weeks (state.sales_by_product p.product_id)))

/-- Current stock lookup of build_plan: qty_in_hand, or 0 with no row. -/
def currentStockOf (state : State) (pid : ℕ) : ℤ :=
  match state.stock_by_product pid with
  | some q => q
  | none => 0

/-- Required stock of build_plan: max(min_stock, forecast * safety_factor),
then lowered to max_stock when it exceeds it. -/
def required_stock (safety_factor : ℚ) (min_stock max_stock : ℤ) (forecast : ℚ) : ℚ :=
  if max (min_stock : ℚ) (forecast * safety_factor) > (max_stock : ℚ) then (max_stock : ℚ)
  else max (min_stock : ℚ) (forecast * safety_factor)

/-- One iteration of the loop body of ReplenishmentAgent.build_plan. -/
def ReplenishmentAgent.buildLine (safety_factor : ℚ) (state : State)
    (forecasts : List (ℕ × ℚ)) (prod : Product) : PlanLine :=
  let pid := prod.product_id
  let current_stock := currentStockOf state pid
  let avg_sales := dictGetD forecasts pid 0
  let forecast_next_week := avg_sales
  let req := required_stock safety_factor prod.min_stock prod.max_stock forecast_next_week
  let oq := roundHalfEven (req - (current_stock : ℚ))
  let order_qty : ℕ := if oq < 0 then 0 else oq.toNat
  if avg_sales < 1 ∧ current_stock > 0 then
    { product_id := pid, name := prod.name,
      avg_weekly_sales := pyRound2 avg_sales, current_stock := current_stock,
      forecast_next_week := pyRound2 forecast_next_week,
      suggested_order_qty := 0, reason := slowMovingReason }
  else
    { product_id := pid, name := prod.name,
      avg_weekly_sales := pyRound2 avg_sales, current_stock := current_stock,
      forecast_next_week := pyRound2 forecast_next_week,
      suggested_order_qty := order_qty,
      reason := mkReason avg_sales current_stock req }

/-- ReplenishmentAgent.build_plan: one line per product, in product order. -/
def ReplenishmentAgent.build_plan (safety_factor : ℚ) (state : State)
    (forecasts : List (ℕ × ℚ)) : List PlanLine :=
  state.products.map (ReplenishmentAgent.buildLine safety_factor state forecasts)

/-- Cost dictionary of BudgetAgent.apply: price_index.get(pid, 0.0). -/
def price_index (products : List Product) (pid : ℕ) : ℚ :=
  match products.reverse.find? (fun p => p.product_id == pid) with
  | some p => p.cost_price
  | none => 0

/-- Pricing pass of BudgetAgent.apply: add unit_cost and line_cost. -/
def priceLine (idx : ℕ → ℚ) (r : PlanLine) : BudgetLine :=
  { toPlanLine := r, unit_cost := idx r.product_id,
    line_cost := idx r.product_id * (r.suggested_order_qty : ℚ),
    budget_note := none }

/-- Plan after the pricing pass of BudgetAgent.apply. -/
def pricedOf (products : List Product) (plan : List PlanLine) : List BudgetLine :=
  plan.map (priceLine (price_index products))

/-- Total cost summed by BudgetAgent.apply after the pricing pass. -/
def totalCostOf (products : List Product) (plan : List PlanLine) : ℚ :=
  ((pricedOf products plan).map (fun r => r.line_cost)).sum

/-- Effect of the drop branch of the walk of BudgetAgent.apply on a line. -/
def droppedLine (r : BudgetLine) : BudgetLine :=
  { r with
    suggested_order_qty := 0, line_cost := 0,
    budget_note := some "Dropped due to budget limit" }

/-- Over-budget walk of BudgetAgent.apply: break once the excess is not
positive, skip lines with no order, otherwise zero the line and lower the
excess by its previous line cost. -/
def dropWalk (excess : ℚ) : List BudgetLine → List BudgetLine
  | [] => []
  | r :: rest =>
    if excess ≤ 0 then r :: rest
    else if r.suggested_order_qty = 0 then r :: dropWalk excess rest
    else droppedLine r :: dropWalk (excess - r.line_cost) rest

/-- Final stamping pass of BudgetAgent.apply: a line still without a budget
note is kept in the final order. -/
def stampKept (r : BudgetLine) : BudgetLine :=
  if r.budget_note = none then { r with budget_note := some "Kept in final order" } else r

/-- Comparison used by the sort of BudgetAgent.apply (key avg_weekly_sales). -/
def budgetLE (a b : BudgetLine) : Bool :=
  decide (a.avg_weekly_sales ≤ b.avg_weekly_sales)

/-- BudgetAgent.apply: price the plan, stamp everything when within budget,
otherwise stable-sort ascending by average weekly sales, walk dropping
positive lines until the excess is gone, then stamp the remaining lines. -/
def BudgetAgent.apply (weekly_budget : ℚ) (plan : List PlanLine)
    (products : List Product) : List BudgetLine :=
  if totalCostOf products plan ≤ weekly_budget then
    (pricedOf products plan).map (fun r => { r with budget_note := some "Within weekly budget" })
  else
    (dropWalk (totalCostOf products plan - weekly_budget)
      ((pricedOf products plan).mergeSort budgetLE)).map stampKept

/-- Plan part of run_agent_pipeline: build_plan over the forecasts, then
BudgetAgent.apply against the snapshot's own product catalog. -/
def run_plan (max_weeks : ℕ) (safety_factor weekly_budget : ℚ) (state : State) :
    List BudgetLine :=
  BudgetAgent.apply weekly_budget
    (ReplenishmentAgent.build_plan safety_factor state (ForecastAgent.forecast max_weeks state))
    state.products

/-- Modelled from the spec: line kept by the budget walk, stamped with the
kept note (every line reaching the walk has no note yet). -/
def keptLine (r : BudgetLine) : BudgetLine :=
  { r with budget_note := some "Kept in final order" }

/-- Modelled from the spec: result of the over-budget stage once the break
index k is known; every positive-quantity line among the first k is dropped
and every other line is kept unchanged apart from the note. -/
def applyDrops : ℕ → List BudgetLine → List BudgetLine
  | _, [] => []
  | 0, r :: rest => keptLine r :: applyDrops 0 rest
  | k+1, r :: rest =>
    (if 0 < r.suggested_order_qty then droppedLine r else keptLine r) :: applyDrops k rest

/-- Cost the walk has dropped after visiting the first i lines while the
excess stayed positive: the line costs of the positive-quantity lines among
the first i elements. -/
def prefixDropCost (l : List BudgetLine) (i : ℕ) : ℚ :=
  (((l.take i).filter (fun r => decide (0 < r.suggested_order_qty))).map (fun r => r.line_cost)).sum

instance : Inhabited PlanLine :=
  ⟨{ product_id := 0, name := "", avg_weekly_sales := 0, current_stock := 0,
     forecast_next_week := 0, suggested_order_qty := 0, reason := "" }⟩

instance : Inhabited BudgetLine :=
  ⟨{ toPlanLine := default, unit_cost := 0, line_cost := 0, budget_note := none }⟩

/-- Sample catalog row used to instantiate the theorems on concrete data. -/
def sampleProduct : Product :=
  { product_id := 1, name := "A", category := "c", cost_price := 5, selling_price := 9,
    min_stock := 10, max_stock := 100, lead_time_days := 3 }

/-- Sample snapshot: one product, five units on hand, no sales history, so
the slow-mover override fires. -/
def sampleState : State :=
  { products := [sampleProduct],
    stock_by_product := fun pid => if pid = 1 then some 5 else none,
    sales_by_product := fun _ => [] }

/-- The single line the pipeline produces from sampleState. -/
def sampleLine : BudgetLine :=
  { product_id := 1, name := "A", avg_weekly_sales := 0, current_stock := 5,
    forecast_next_week := 0, suggested_order_qty := 0, reason := slowMovingReason,
    unit_cost := 5, line_cost := 0, budget_note := some "Within weekly budget" }

/-- Sample catalog row with a negative cost price (representable through the
product form, which parses any float). -/
def negProduct : Product :=
  { product_id := 1, name := "A", category := "c", cost_price := -5, selling_price := 0,
    min_stock := 10, max_stock := 100, lead_time_days := 3 }

/-- Snapshot around negProduct: no stock record and no sales history. -/
def negState : State :=
  { products := [negProduct],
    stock_by_product := fun _ => none,
    sales_by_product := fun _ => [] }

/-- The single line the pipeline produces from negState: ten units ordered
at unit cost -5, total -50, within the default budget. -/
def negLine : BudgetLine :=
  { product_id := 1, name := "A", avg_weekly_sales := 0, current_stock := 0,
    forecast_next_week := 0, suggested_order_qty := 10, reason := mkReason 0 0 10,
    unit_cost := -5, line_cost := -50, budget_note := some "Within weekly budget" }

/-- Snapshot around sampleProduct with no stock record and no history. -/
def noStockState : State :=
  { products := [sampleProduct],
    stock_by_product := fun _ => none,
    sales_by_product := fun _ => [] }

/-- Snapshot around sampleProduct with two recorded sales weeks. -/
def salesState : State :=
  { products := [sampleProduct],
    stock_by_product := fun _ => none,
    sales_by_product := fun _ => [2, 4] }

/-- Concrete plan line whose cost fits the sample budget. -/
def withinPlanLine : PlanLine :=
  { product_id := 1, name := "A", avg_weekly_sales := 2, current_stock := 0,
    forecast_next_week := 2, suggested_order_qty := 3, reason := "r" }

/-- Concrete plan line whose cost exceeds the sample budget of 25. -/
def overPlanLine : PlanLine :=
  { product_id := 1, name := "A", avg_weekly_sales := 2, current_stock := 0,
    forecast_next_week := 2, suggested_order_qty := 10, reason := "r" }

/-! Helper lemmas about the embedded operations. -/

theorem roundHalfEven_le {q : ℚ} {z : ℤ} (h : q ≤ (z : ℚ)) : roundHalfEven q ≤ z := by
  have hfz : ⌊q⌋ ≤ z := by simpa using Int.floor_mono h
  show (if q - ((⌊q⌋ : ℤ) : ℚ) < 1/2 then ⌊q⌋
    else if q - ((⌊q⌋ : ℤ) : ℚ) > 1/2 then ⌊q⌋ + 1
    else if ⌊q⌋ % 2 = 0 then ⌊q⌋ else ⌊q⌋ + 1) ≤ z
  by_cases h1 : q - ((⌊q⌋ : ℤ) : ℚ) < 1/2
  · rw [if_pos h1]; exact hfz
  · have hhalf : ((⌊q⌋ : ℤ) : ℚ) + 1/2 ≤ q := by
      have := not_lt.mp h1
      linarith
    have hlt : ((⌊q⌋ : ℤ) : ℚ) < (z : ℚ) := by
      have hz : q ≤ (z : ℚ) := h
      linarith
    have hzlt : ⌊q⌋ < z := by exact_mod_cast hlt
    rw [if_neg h1]
    by_cases h2 : q - ((⌊q⌋ : ℤ) : ℚ) > 1/2
    · rw [if_pos h2]; omega
    · rw [if_neg h2]
      by_cases h3 : ⌊q⌋ % 2 = 0
      · rw [if_pos h3]; exact hfz
      · rw [if_neg h3]; omega

theorem single_digit_repr {m : ℕ} (h : m < 10) :
    ∃ c : Char, (toString m).data = [c] ∧ c.isDigit = true := by
  interval_cases m
  · exact ⟨'0', by decide, by decide⟩
  · exact ⟨'1', by decide, by decide⟩
  · exact ⟨'2', by decide, by decide⟩
  · exact ⟨'3', by decide, by decide⟩
  · exact ⟨'4', by decide, by decide⟩
  · exact ⟨'5', by decide, by decide⟩
  · exact ⟨'6', by decide, by decide⟩
  · exact ⟨'7', by decide, by decide⟩
  · exact ⟨'8', by decide, by decide⟩
  · exact ⟨'9', by decide, by decide⟩

theorem fracDigits_fmtFixed (q : ℚ) : fracDigits (fmtFixed q) = 1 := by
  obtain ⟨c, hc, hdig⟩ :=
    single_digit_repr (m := (roundHalfEven (q * 10)).natAbs % 10)
      (Nat.mod_lt _ (by norm_num))
  unfold fracDigits fmtFixed
  by_cases hq : q < 0 <;>
    simp [hq, hc, List.takeWhile, hdig]

theorem dictGetD_forecast (max_weeks : ℕ) (state : State) {p : Product}
    (hp : p ∈ state.products) :
    dictGetD (ForecastAgent.forecast max_weeks state) p.product_id 0
      = ForecastAgent.avg_sales max_weeks (state.sales_by_product p.product_id) := by
  unfold dictGetD
  cases hfind : (ForecastAgent.forecast max_weeks state).reverse.find?
      (fun kv => kv.1 == p.product_id) with
  | none =>
    exfalso
    rw [List.find?_eq_none] at hfind
    refine hfind (p.product_id,
      ForecastAgent.avg_sales max_weeks (state.sales_by_product p.product_id)) ?_ (by simp)
    rw [List.mem_reverse]
    exact List.mem_map.mpr ⟨p, hp, rfl⟩
  | some kv =>
    have h1 : kv.1 = p.product_id := by simpa using List.find?_some hfind
    have h2 : kv ∈ ForecastAgent.forecast max_weeks state := by
      have := List.mem_of_find?_eq_some hfind
      rwa [List.mem_reverse] at this
    obtain ⟨q, hq, hkv⟩ := List.mem_map.mp h2
    have hval : kv.2 = ForecastAgent.avg_sales max_weeks (state.sales_by_product kv.1) := by
      rw [← hkv]
    show kv.2 = ForecastAgent.avg_sales max_weeks (state.sales_by_product p.product_id)
    rw [hval, h1]

theorem buildLine_product_id (sf : ℚ) (state : State) (f : List (ℕ × ℚ)) (p : Product) :
    (ReplenishmentAgent.buildLine sf state f p).product_id = p.product_id := by
  simp only [ReplenishmentAgent.buildLine]
  split <;> rfl

theorem buildLine_current_stock (sf : ℚ) (state : State) (f : List (ℕ × ℚ)) (p : Product) :
    (ReplenishmentAgent.buildLine sf state f p).current_stock = currentStockOf state p.product_id := by
  simp only [ReplenishmentAgent.buildLine]
  split <;> rfl

theorem buildLine_slow (sf : ℚ) (state : State) (f : List (ℕ × ℚ)) (p : Product)
    (h1 : dictGetD f p.product_id 0 < 1) (h2 : 0 < currentStockOf state p.product_id) :
    (ReplenishmentAgent.buildLine sf state f p).suggested_order_qty = 0 := by
  simp only [ReplenishmentAgent.buildLine]
  rw [if_pos ⟨h1, h2⟩]

theorem build_plan_map_pid (sf : ℚ) (state : State) (f : List (ℕ × ℚ)) :
    (ReplenishmentAgent.build_plan sf state f).map (fun r => r.product_id)
      = state.products.map (fun p => p.product_id) := by
  unfold ReplenishmentAgent.build_plan
  rw [List.map_map]
  exact List.map_congr_left (fun p _ => buildLine_product_id sf state f p)

theorem stampKept_product_id (r : BudgetLine) : (stampKept r).product_id = r.product_id := by
  unfold stampKept; split <;> rfl

theorem stampKept_line_cost (r : BudgetLine) : (stampKept r).line_cost = r.line_cost := by
  unfold stampKept; split <;> rfl

theorem stampKept_qty (r : BudgetLine) :
    (stampKept r).suggested_order_qty = r.suggested_order_qty := by
  unfold stampKept; split <;> rfl

theorem dropWalk_map_pid (e : ℚ) (l : List BudgetLine) :
    (dropWalk e l).map (fun r => r.product_id) = l.map (fun r => r.product_id) := by
  induction l generalizing e with
  | nil => rfl
  | cons r rest ih =>
    unfold dropWalk
    by_cases he : e ≤ 0
    · rw [if_pos he]
    · rw [if_neg he]
      by_cases hq : r.suggested_order_qty = 0
      · rw [if_pos hq]
        simp [ih]
      · rw [if_neg hq]
        simp [ih, droppedLine]

theorem dropWalk_mem (e : ℚ) (l : List BudgetLine) :
    ∀ o ∈ dropWalk e l, ∃ r ∈ l, o = r ∨ o = droppedLine r := by
  induction l generalizing e with
  | nil => simp [dropWalk]
  | cons r rest ih =>
    intro o ho
    unfold dropWalk at ho
    by_cases he : e ≤ 0
    · rw [if_pos he] at ho
      exact ⟨o, ho, Or.inl rfl⟩
    · rw [if_neg he] at ho
      by_cases hq : r.suggested_order_qty = 0
      · rw [if_pos hq] at ho
        rcases List.mem_cons.mp ho with h | h
        · exact ⟨r, List.mem_cons_self r rest, Or.inl h⟩
        · obtain ⟨s, hs, hor⟩ := ih e o h
          exact ⟨s, List.mem_cons_of_mem r hs, hor⟩
      · rw [if_neg hq] at ho
        rcases List.mem_cons.mp ho with h | h
        · exact ⟨r, List.mem_cons_self r rest, Or.inr h⟩
        · obtain ⟨s, hs, hor⟩ := ih (e - r.line_cost) o h
          exact ⟨s, List.mem_cons_of_mem r hs, hor⟩

theorem dropWalk_sum (l : List BudgetLine) :
    ∀ e : ℚ, (∀ r ∈ l, r.suggested_order_qty = 0 → r.line_cost = 0) →
    ((dropWalk e l).map (fun r => r.line_cost)).sum ≤ (l.map (fun r => r.line_cost)).sum - e ∨
    ((dropWalk e l).map (fun r => r.line_cost)).sum = 0 := by
  induction l with
  | nil => intro e _; exact Or.inr (by simp [dropWalk])
  | cons r rest ih =>
    intro e h
    unfold dropWalk
    by_cases he : e ≤ 0
    · rw [if_pos he]
      left
      linarith [le_refl ((List.map (fun r => r.line_cost) (r :: rest)).sum)]
    · rw [if_neg he]
      by_cases hq : r.suggested_order_qty = 0
      · rw [if_pos hq]
        have hc : r.line_cost = 0 := h r (List.mem_cons_self r rest) hq
        rcases ih e (fun x hx => h x (List.mem_cons_of_mem r hx)) with h1 | h1
        · left; simp only [List.map_cons, List.sum_cons, hc]; linarith
        · right; simp only [List.map_cons, List.sum_cons, hc, h1]; ring
      · rw [if_neg hq]
        rcases ih (e - r.line_cost) (fun x hx => h x (List.mem_cons_of_mem r hx)) with h1 | h1
        · left
          simp only [List.map_cons, List.sum_cons, droppedLine]
          linarith
        · right
          simp only [List.map_cons, List.sum_cons, droppedLine, h1]
          ring

theorem prefixDropCost_zero (l : List BudgetLine) : prefixDropCost l 0 = 0 := by
  simp [prefixDropCost]

theorem prefixDropCost_cons_pos {r : BudgetLine} (h : 0 < r.suggested_order_qty)
    (rest : List BudgetLine) (i : ℕ) :
    prefixDropCost (r :: rest) (i+1) = r.line_cost + prefixDropCost rest i := by
  simp [prefixDropCost, List.filter_cons, h]

theorem prefixDropCost_cons_zero {r : BudgetLine} (h : r.suggested_order_qty = 0)
    (rest : List BudgetLine) (i : ℕ) :
    prefixDropCost (r :: rest) (i+1) = prefixDropCost rest i := by
  simp [prefixDropCost, List.filter_cons, h]

theorem applyDrops_zero (l : List BudgetLine) : applyDrops 0 l = l.map keptLine := by
  induction l with
  | nil => rfl
  | cons r rest ih => rw [applyDrops, ih, List.map_cons]

theorem stampKept_of_none {r : BudgetLine} (h : r.budget_note = none) :
    stampKept r = keptLine r := by
  unfold stampKept keptLine
  rw [if_pos h]

theorem stampKept_droppedLine (r : BudgetLine) :
    stampKept (droppedLine r) = droppedLine r := by
  simp [stampKept, droppedLine]

theorem applyDrops_map_avg (k : ℕ) (l : List BudgetLine) :
    (applyDrops k l).map (fun r => r.avg_weekly_sales)
      = l.map (fun r => r.avg_weekly_sales) := by
  induction l generalizing k with
  | nil => cases k <;> rfl
  | cons r rest ih =>
    cases k with
    | zero => rw [applyDrops]; simp [keptLine, ih 0]
    | succ k =>
      rw [applyDrops]
      simp only [List.map_cons, ih k]
      congr 1
      split <;> rfl

theorem dropWalk_spec (l : List BudgetLine) :
    ∀ e : ℚ, (∀ r ∈ l, r.budget_note = none) →
    ∃ k, k ≤ l.length ∧ (dropWalk e l).map stampKept = applyDrops k l ∧
      (∀ i, i < k → prefixDropCost l i < e) ∧
      (k < l.length → e ≤ prefixDropCost l k) := by
  induction l with
  | nil =>
    intro e _
    exact ⟨0, by simp, by simp [dropWalk, applyDrops], fun i hi => absurd hi (by omega), by simp⟩
  | cons r rest ih =>
    intro e h
    by_cases he : e ≤ 0
    · refine ⟨0, by simp, ?_, fun i hi => absurd hi (by omega), fun _ => ?_⟩
      · rw [dropWalk, if_pos he, applyDrops_zero]
        exact List.map_congr_left (fun x hx => stampKept_of_none (h x hx))
      · rw [prefixDropCost_zero]
        exact he
    · push_neg at he
      by_cases hq : r.suggested_order_qty = 0
      · obtain ⟨k, hk, heq, hlt, hstop⟩ := ih e (fun x hx => h x (List.mem_cons_of_mem r hx))
        refine ⟨k+1, by simpa using hk, ?_, ?_, ?_⟩
        · rw [dropWalk, if_neg (not_le.mpr he), if_pos hq, applyDrops]
          rw [List.map_cons, heq, if_neg (by omega : ¬ 0 < r.suggested_order_qty)]
          rw [stampKept_of_none (h r (List.mem_cons_self r rest))]
        · intro i hi
          cases i with
          | zero => rw [prefixDropCost_zero]; exact he
          | succ j =>
            rw [prefixDropCost_cons_zero hq]
            exact hlt j (by omega)
        · intro hk2
          rw [prefixDropCost_cons_zero hq]
          exact hstop (by simpa using hk2)
      · have hq' : 0 < r.suggested_order_qty := by omega
        obtain ⟨k, hk, heq, hlt, hstop⟩ :=
          ih (e - r.line_cost) (fun x hx => h x (List.mem_cons_of_mem r hx))
        refine ⟨k+1, by simpa using hk, ?_, ?_, ?_⟩
        · rw [dropWalk, if_neg (not_le.mpr he), if_neg hq, applyDrops]
          rw [List.map_cons, heq, if_pos hq', stampKept_droppedLine]
        · intro i hi
          cases i with
          | zero => rw [prefixDropCost_zero]; exact he
          | succ j =>
            rw [prefixDropCost_cons_pos hq']
            have := hlt j (by omega)
            linarith
        · intro hk2
          rw [prefixDropCost_cons_pos hq']
          have := hstop (by simpa using hk2)
          linarith

theorem pricedOf_note (products : List Product) (plan : List PlanLine) :
    ∀ r ∈ pricedOf products plan, r.budget_note = none := by
  intro r hr
  obtain ⟨x, _, rfl⟩ := List.mem_map.mp hr
  rfl

theorem pricedOf_zero_cost (products : List Product) (plan : List PlanLine) :
    ∀ r ∈ pricedOf products plan, r.suggested_order_qty = 0 → r.line_cost = 0 := by
  intro r hr h0
  obtain ⟨x, _, rfl⟩ := List.mem_map.mp hr
  have hx : x.suggested_order_qty = 0 := h0
  simp [priceLine, hx]

theorem sortedPlan_sum (products : List Product) (plan : List PlanLine) :
    (((pricedOf products plan).mergeSort budgetLE).map (fun r => r.line_cost)).sum
      = totalCostOf products plan :=
  List.Perm.sum_eq (List.Perm.map _ (List.mergeSort_perm _ _))

theorem apply_mem_spec (b : ℚ) (plan : List PlanLine) (products : List Product) :
    ∀ o ∈ BudgetAgent.apply b plan products, ∃ r ∈ plan,
      o.product_id = r.product_id ∧
      ((o.suggested_order_qty = r.suggested_order_qty ∧
          o.line_cost = price_index products r.product_id * (r.suggested_order_qty : ℚ)) ∨
        (o.suggested_order_qty = 0 ∧ o.line_cost = 0)) := by
  intro o ho
  unfold BudgetAgent.apply at ho
  by_cases hle : totalCostOf products plan ≤ b
  · rw [if_pos hle] at ho
    obtain ⟨s, hs, rfl⟩ := List.mem_map.mp ho
    obtain ⟨x, hx, rfl⟩ := List.mem_map.mp hs
    exact ⟨x, hx, rfl, Or.inl ⟨rfl, rfl⟩⟩
  · rw [if_neg hle] at ho
    obtain ⟨w, hw, rfl⟩ := List.mem_map.mp ho
    obtain ⟨s, hs, hor⟩ := dropWalk_mem _ _ w hw
    rw [List.mem_mergeSort] at hs
    obtain ⟨x, hx, rfl⟩ := List.mem_map.mp hs
    rcases hor with rfl | rfl
    · refine ⟨x, hx, ?_, Or.inl ⟨?_, ?_⟩⟩
      · rw [stampKept_product_id]; rfl
      · rw [stampKept_qty]; rfl
      · rw [stampKept_line_cost]; rfl
    · refine ⟨x, hx, ?_, Or.inr ⟨?_, ?_⟩⟩
      · rw [stampKept_product_id]; rfl
      · rw [stampKept_qty]; rfl
      · rw [stampKept_line_cost]; rfl

theorem pricedOf_map_pid (products : List Product) (plan : List PlanLine) :
    (pricedOf products plan).map (fun r => r.product_id)
      = plan.map (fun r => r.product_id) := by
  unfold pricedOf
  rw [List.map_map]
  rfl

theorem apply_map_pid_perm (b : ℚ) (plan : List PlanLine) (products : List Product) :
    ((BudgetAgent.apply b plan products).map (fun r => r.product_id)).Perm
      (plan.map (fun r => r.product_id)) := by
  unfold BudgetAgent.apply
  by_cases hle : totalCostOf products plan ≤ b
  · rw [if_pos hle]
    have heq : ((pricedOf products plan).map
        (fun r => { r with budget_note := some "Within weekly budget" })).map
          (fun r => r.product_id) = plan.map (fun r => r.product_id) := by
      rw [List.map_map, ← pricedOf_map_pid products plan]
      rfl
    rw [heq]
  · rw [if_neg hle]
    have h1 : ((dropWalk (totalCostOf products plan - b)
        ((pricedOf products plan).mergeSort budgetLE)).map stampKept).map
          (fun r => r.product_id)
        = ((pricedOf products plan).mergeSort budgetLE).map (fun r => r.product_id) := by
      rw [List.map_map]
      have hc : ((fun r : BudgetLine => r.product_id) ∘ stampKept)
          = fun r : BudgetLine => r.product_id := funext stampKept_product_id
      rw [hc]
      exact dropWalk_map_pid _ _
    rw [h1, ← pricedOf_map_pid products plan]
    exact List.Perm.map _ (List.mergeSort_perm _ _)

theorem price_index_nonneg {products : List Product}
    (h : ∀ p ∈ products, 0 ≤ p.cost_price) (pid : ℕ) :
    0 ≤ price_index products pid := by
  unfold price_index
  cases hfind : products.reverse.find? (fun p => p.product_id == pid) with
  | none => exact le_refl 0
  | some p =>
    have hp : p ∈ products := by
      have := List.mem_of_find?_eq_some hfind
      rwa [List.mem_reverse] at this
    exact h p hp

theorem buildLine_qty_eq (sf : ℚ) (state : State) (f : List (ℕ × ℚ)) (p : Product)
    (h : ¬ (dictGetD f p.product_id 0 < 1 ∧ currentStockOf state p.product_id > 0)) :
    (ReplenishmentAgent.buildLine sf state f p).suggested_order_qty
      = if roundHalfEven (required_stock sf p.min_stock p.max_stock (dictGetD f p.product_id 0)
            - (currentStockOf state p.product_id : ℚ)) < 0 then 0
        else (roundHalfEven (required_stock sf p.min_stock p.max_stock (dictGetD f p.product_id 0)
            - (currentStockOf state p.product_id : ℚ))).toNat := by
  simp only [ReplenishmentAgent.buildLine]
  rw [if_neg h]

theorem buildLine_reason_eq (sf : ℚ) (state : State) (f : List (ℕ × ℚ)) (p : Product)
    (h : ¬ (dictGetD f p.product_id 0 < 1 ∧ currentStockOf state p.product_id > 0)) :
    (ReplenishmentAgent.buildLine sf state f p).reason
      = mkReason (dictGetD f p.product_id 0) (currentStockOf state p.product_id)
          (required_stock sf p.min_stock p.max_stock (dictGetD f p.product_id 0)) := by
  simp only [ReplenishmentAgent.buildLine]
  rw [if_neg h]

theorem required_stock_eq_min (sf : ℚ) (m M : ℤ) (f : ℚ) :
    required_stock sf m M f = min (M : ℚ) (max (m : ℚ) (f * sf)) := by
  unfold required_stock
  by_cases hgt : max (m : ℚ) (f * sf) > (M : ℚ)
  · rw [if_pos hgt, min_eq_left (le_of_lt hgt)]
  · rw [if_neg hgt, min_eq_right (not_lt.mp hgt)]

theorem ite_toNat_eq_max_toNat (z : ℤ) : (if z < 0 then 0 else z.toNat) = (max z 0).toNat := by
  by_cases hz : z < 0
  · rw [if_pos hz]
    omega
  · rw [if_neg hz]
    omega

/-! Claim theorems. -/

/-- C1: for every plan and product catalog, whenever the weekly budget is
nonnegative the sum of line_cost over the sequence returned by
BudgetAgent.apply is at most the weekly budget; the walk can always get
under a nonnegative budget because a full drop reaches total cost zero. -/
theorem apply_total_cost_le_budget (weekly_budget : ℚ) (plan : List PlanLine)
    (products : List Product) (hb : 0 ≤ weekly_budget) :
    ((BudgetAgent.apply weekly_budget plan products).map (fun r => r.line_cost)).sum
      ≤ weekly_budget := by
  unfold BudgetAgent.apply
  by_cases hle : totalCostOf products plan ≤ weekly_budget
  · rw [if_pos hle]
    have heq : ((pricedOf products plan).map
        (fun r => { r with budget_note := some "Within weekly budget" })).map
          (fun r => r.line_cost)
        = (pricedOf products plan).map (fun r => r.line_cost) := by
      rw [List.map_map]
      rfl
    rw [heq]
    exact hle
  · rw [if_neg hle]
    push_neg at hle
    have heq : ((dropWalk (totalCostOf products plan - weekly_budget)
        ((pricedOf products plan).mergeSort budgetLE)).map stampKept).map
          (fun r => r.line_cost)
        = (dropWalk (totalCostOf products plan - weekly_budget)
            ((pricedOf products plan).mergeSort budgetLE)).map (fun r => r.line_cost) := by
      rw [List.map_map]
      exact List.map_congr_left (fun x _ => stampKept_line_cost x)
    rw [heq]
    have hzero : ∀ r ∈ (pricedOf products plan).mergeSort budgetLE,
        r.suggested_order_qty = 0 → r.line_cost = 0 := fun r hr =>
      pricedOf_zero_cost products plan r (List.mem_mergeSort.mp hr)
    rcases dropWalk_sum _ (totalCostOf products plan - weekly_budget) hzero with h1 | h1
    · rw [sortedPlan_sum] at h1
      linarith
    · rw [h1]
      exact hb

/-- C1 witness: a concrete over-budget instance with nonnegative budget. -/
theorem apply_total_cost_le_budget_witness :
    (0 : ℚ) ≤ 25 ∧
    ((BudgetAgent.apply 25
        [{ product_id := 1, name := "A", avg_weekly_sales := 2, current_stock := 0,
           forecast_next_week := 2, suggested_order_qty := 10, reason := "r" },
         { product_id := 2, name := "B", avg_weekly_sales := 5, current_stock := 0,
           forecast_next_week := 5, suggested_order_qty := 3, reason := "s" }]
        [{ product_id := 1, name := "A", category := "c", cost_price := 4, selling_price := 0,
           min_stock := 0, max_stock := 100, lead_time_days := 3 },
         { product_id := 2, name := "B", category := "c", cost_price := 7, selling_price := 0,
           min_stock := 0, max_stock := 100, lead_time_days := 3 }]).map
        (fun r => r.line_cost)).sum ≤ 25 :=
  ⟨by norm_num, apply_total_cost_le_budget 25 _ _ (by norm_num)⟩

/-- C8: the plan returned by the pipeline contains exactly one line per
active product of the snapshot, regardless of the output ordering: the
product ids of the final plan are a permutation of the product ids of the
snapshot, hence every id occurs equally often in plan and snapshot. -/
theorem run_plan_coverage (max_weeks : ℕ) (sf b : ℚ) (state : State) :
    ((run_plan max_weeks sf b state).map (fun r => r.product_id)).Perm
        (state.products.map (fun p => p.product_id))
      ∧ ∀ pid : ℕ,
          ((run_plan max_weeks sf b state).map (fun r => r.product_id)).count pid
            = (state.products.map (fun p => p.product_id)).count pid := by
  have hperm : ((run_plan max_weeks sf b state).map (fun r => r.product_id)).Perm
      (state.products.map (fun p => p.product_id)) := by
    unfold run_plan
    have h1 := apply_map_pid_perm b
      (ReplenishmentAgent.build_plan sf state (ForecastAgent.forecast max_weeks state))
      state.products
    rwa [build_plan_map_pid] at h1
  exact ⟨hperm, fun pid => hperm.count_eq pid⟩

/-- C2: a product whose average weekly sales is below one while stock is
on hand ends with suggested_order_qty zero in the final post-budget plan:
build_plan forces the quantity to zero for it and BudgetAgent.apply never
increases a quantity. -/
theorem run_plan_slow_mover (max_weeks : ℕ) (sf b : ℚ) (state : State)
    (p : Product) (hp : p ∈ state.products)
    (havg : ForecastAgent.avg_sales max_weeks (state.sales_by_product p.product_id) < 1)
    (hstock : 0 < currentStockOf state p.product_id)
    (o : BudgetLine) (ho : o ∈ run_plan max_weeks sf b state)
    (hpid : o.product_id = p.product_id) :
    o.suggested_order_qty = 0 := by
  unfold run_plan at ho
  obtain ⟨r, hr, hpid2, hor⟩ := apply_mem_spec _ _ _ o ho
  unfold ReplenishmentAgent.build_plan at hr
  obtain ⟨q, hq, rfl⟩ := List.mem_map.mp hr
  rcases hor with ⟨hqty, _⟩ | ⟨hqty, _⟩
  · have hqp : q.product_id = p.product_id := by
      rw [buildLine_product_id] at hpid2
      rw [← hpid2, hpid]
    rw [hqty]
    apply buildLine_slow
    · rw [hqp, dictGetD_forecast max_weeks state hp]
      exact havg
    · rw [hqp]
      exact hstock
  · exact hqty

/-- C10: with a well-formed stock policy 0 ≤ min_stock ≤ max_stock and
nonnegative stock on hand, the quantity suggested by build_plan never
exceeds max_stock, because the required-stock clamp caps the target at
max_stock; an upper bound the spec does not state. -/
theorem buildLine_qty_le_max_stock (sf : ℚ) (state : State) (f : List (ℕ × ℚ)) (p : Product)
    (hmin : 0 ≤ p.min_stock) (hminmax : p.min_stock ≤ p.max_stock)
    (hcur : 0 ≤ currentStockOf state p.product_id) :
    ((ReplenishmentAgent.buildLine sf state f p).suggested_order_qty : ℤ) ≤ p.max_stock := by
  have hmax0 : (0 : ℤ) ≤ p.max_stock := le_trans hmin hminmax
  by_cases hslow : dictGetD f p.product_id 0 < 1 ∧ currentStockOf state p.product_id > 0
  · have h0 : (ReplenishmentAgent.buildLine sf state f p).suggested_order_qty = 0 :=
      buildLine_slow sf state f p hslow.1 hslow.2
    rw [h0]
    exact_mod_cast hmax0
  · rw [buildLine_qty_eq sf state f p hslow]
    have hreq : required_stock sf p.min_stock p.max_stock (dictGetD f p.product_id 0)
        ≤ (p.max_stock : ℚ) := by
      rw [required_stock_eq_min]
      exact min_le_left _ _
    have hcurq : (0 : ℚ) ≤ (currentStockOf state p.product_id : ℚ) := by exact_mod_cast hcur
    have hle : required_stock sf p.min_stock p.max_stock (dictGetD f p.product_id 0)
        - (currentStockOf state p.product_id : ℚ) ≤ (p.max_stock : ℚ) := by linarith
    have hround := roundHalfEven_le hle
    by_cases hneg : roundHalfEven (required_stock sf p.min_stock p.max_stock
        (dictGetD f p.product_id 0) - (currentStockOf state p.product_id : ℚ)) < 0
    · rw [if_pos hneg]
      exact_mod_cast hmax0
    · rw [if_neg hneg]
      omega

/-- C3: for a product not hit by the slow-mover override, build_plan
computes suggested_order_qty = max(0, round(required - current)) with
required = max(min_stock, forecast * safety_factor) capped at max_stock and
the current stock defaulting to 0 without a stock record; with max_stock 50,
forecast 1000 and safety factor 1.5 the required stock is 50, not 1500. -/
theorem buildLine_qty_formula (sf : ℚ) (state : State) (f : List (ℕ × ℚ)) (p : Product)
    (h : ¬ (dictGetD f p.product_id 0 < 1 ∧ currentStockOf state p.product_id > 0)) :
    (ReplenishmentAgent.buildLine sf state f p).suggested_order_qty
        = (max (roundHalfEven (min (p.max_stock : ℚ)
              (max (p.min_stock : ℚ) (dictGetD f p.product_id 0 * sf))
            - (currentStockOf state p.product_id : ℚ))) 0).toNat
      ∧ required_stock (3/2) 10 50 1000 = 50
      ∧ (state.stock_by_product p.product_id = none
          → currentStockOf state p.product_id = 0) := by
  refine ⟨?_, ?_, ?_⟩
  · rw [buildLine_qty_eq sf state f p h, ite_toNat_eq_max_toNat, ← required_stock_eq_min]
  · unfold required_stock
    have h15 : max (((10 : ℤ)) : ℚ) ((1000 : ℚ) * (3/2)) = 1500 := by
      rw [max_eq_right (by norm_num)]
      norm_num
    rw [h15]
    rw [if_pos (by norm_num : (1500 : ℚ) > (((50 : ℤ)) : ℚ))]
    norm_num
  · intro hnone
    unfold currentStockOf
    rw [hnone]

/-- C4: ForecastAgent.forecast yields 0.0 for a product with no sales
records, and otherwise the unweighted arithmetic mean of qty_sold over the
up to max_weeks most recent records (the sales list is ordered most recent
first), stated as mean times count equals sum; absent history yields a
value rather than an error. -/
theorem forecast_mean (max_weeks : ℕ) (state : State) (p : Product)
    (hp : p ∈ state.products) :
    (state.sales_by_product p.product_id = []
        → dictGetD (ForecastAgent.forecast max_weeks state) p.product_id 0 = 0)
      ∧ (state.sales_by_product p.product_id ≠ [] → 0 < max_weeks
          → dictGetD (ForecastAgent.forecast max_weeks state) p.product_id 0
                * (((state.sales_by_product p.product_id).take max_weeks).length : ℚ)
              = ((((state.sales_by_product p.product_id).take max_weeks).sum : ℤ) : ℚ)) := by
  rw [dictGetD_forecast max_weeks state hp]
  constructor
  · intro he
    unfold ForecastAgent.avg_sales
    rw [if_pos he]
  · intro hne hmw
    unfold ForecastAgent.avg_sales
    rw [if_neg hne]
    have hne2 : (state.sales_by_product p.product_id).take max_weeks ≠ [] := by
      cases hs : state.sales_by_product p.product_id with
      | nil => exact absurd hs hne
      | cons a l =>
        cases max_weeks with
        | zero => omega
        | succ k => simp
    have hlen : ((((state.sales_by_product p.product_id).take max_weeks).length : ℕ) : ℚ) ≠ 0 := by
      have := List.length_pos.mpr hne2
      exact_mod_cast Nat.pos_iff_ne_zero.mp this
    rw [div_mul_cancel₀ _ hlen]

/-- C5: when the total line cost fits the weekly budget, BudgetAgent.apply
returns the lines in their original order, each with its quantity and every
other build_plan field unchanged, the note Within weekly budget, and the
freshly computed unit_cost and line_cost as the only additions. -/
theorem apply_within_budget_frame (weekly_budget : ℚ) (plan : List PlanLine)
    (products : List Product)
    (h : totalCostOf products plan ≤ weekly_budget) :
    List.Forall₂ (fun (r : PlanLine) (o : BudgetLine) =>
        o.toPlanLine = r ∧ o.budget_note = some "Within weekly budget"
          ∧ o.unit_cost = price_index products r.product_id
          ∧ o.line_cost = price_index products r.product_id * (r.suggested_order_qty : ℚ))
      plan (BudgetAgent.apply weekly_budget plan products) := by
  unfold BudgetAgent.apply
  rw [if_pos h]
  unfold pricedOf
  rw [List.map_map, List.forall₂_map_right_iff, List.forall₂_same]
  intro x _
  exact ⟨rfl, rfl, rfl, rfl⟩

theorem budgetLE_trans : ∀ a b c : BudgetLine,
    budgetLE a b → budgetLE b c → budgetLE a c := by
  intro a b c hab hbc
  unfold budgetLE at *
  simp only [decide_eq_true_eq] at *
  exact le_trans hab hbc

theorem budgetLE_total : ∀ a b : BudgetLine, budgetLE a b || budgetLE b a := by
  intro a b
  unfold budgetLE
  rcases le_total a.avg_weekly_sales b.avg_weekly_sales with h | h <;> simp [h]

/-- C6: when the total line cost exceeds the weekly budget,
BudgetAgent.apply returns the priced lines stably sorted ascending by
average weekly sales and walked with a break index k: every
positive-quantity line before k is zeroed with the dropped note, every
other line keeps its quantity and cost and receives the kept note
(applyDrops); the walk ran exactly while the excess remained positive
(prefix costs below the excess) and stopped as soon as the excess was
spent; the returned sequence is sorted by average weekly sales, is a
permutation of the priced plan, and tied lines keep their original
relative order. -/
theorem apply_over_budget_spec (weekly_budget : ℚ) (plan : List PlanLine)
    (products : List Product)
    (h : weekly_budget < totalCostOf products plan) :
    ∃ k ≤ ((pricedOf products plan).mergeSort budgetLE).length,
      BudgetAgent.apply weekly_budget plan products
          = applyDrops k ((pricedOf products plan).mergeSort budgetLE)
        ∧ (∀ i, i < k → prefixDropCost ((pricedOf products plan).mergeSort budgetLE) i
            < totalCostOf products plan - weekly_budget)
        ∧ (k < ((pricedOf products plan).mergeSort budgetLE).length
            → totalCostOf products plan - weekly_budget
                ≤ prefixDropCost ((pricedOf products plan).mergeSort budgetLE) k)
        ∧ List.Pairwise (fun a b : BudgetLine => a.avg_weekly_sales ≤ b.avg_weekly_sales)
            (BudgetAgent.apply weekly_budget plan products)
        ∧ ((pricedOf products plan).mergeSort budgetLE).Perm (pricedOf products plan)
        ∧ ∀ a b : BudgetLine, a.avg_weekly_sales ≤ b.avg_weekly_sales
            → List.Sublist [a, b] (pricedOf products plan)
            → List.Sublist [a, b] ((pricedOf products plan).mergeSort budgetLE) := by
  have hnotes : ∀ r ∈ (pricedOf products plan).mergeSort budgetLE, r.budget_note = none :=
    fun r hr => pricedOf_note products plan r (List.mem_mergeSort.mp hr)
  obtain ⟨k, hk, heq, hlt, hstop⟩ :=
    dropWalk_spec ((pricedOf products plan).mergeSort budgetLE)
      (totalCostOf products plan - weekly_budget) hnotes
  have happly : BudgetAgent.apply weekly_budget plan products
      = applyDrops k ((pricedOf products plan).mergeSort budgetLE) := by
    unfold BudgetAgent.apply
    rw [if_neg (not_le.mpr h)]
    exact heq
  have hsorted : List.Pairwise
      (fun a b : BudgetLine => a.avg_weekly_sales ≤ b.avg_weekly_sales)
      ((pricedOf products plan).mergeSort budgetLE) := by
    have hp := List.sorted_mergeSort budgetLE_trans budgetLE_total (pricedOf products plan)
    exact hp.imp (fun hab => by simpa [budgetLE] using hab)
  refine ⟨k, hk, happly, hlt, hstop, ?_, List.mergeSort_perm _ _, ?_⟩
  · rw [happly]
    have hmapavg := applyDrops_map_avg k ((pricedOf products plan).mergeSort budgetLE)
    have h1 : List.Pairwise (fun x y : ℚ => x ≤ y)
        (((pricedOf products plan).mergeSort budgetLE).map (fun r => r.avg_weekly_sales)) :=
      (List.pairwise_map).mpr hsorted
    rw [← hmapavg] at h1
    exact (List.pairwise_map).mp h1
  · intro a b hab hsub
    exact List.pair_sublist_mergeSort budgetLE_trans budgetLE_total
      (by simpa [budgetLE] using hab) hsub

theorem roundHalfEven_intCast (z : ℤ) : roundHalfEven ((z : ℤ) : ℚ) = z := by
  show (if ((z : ℚ)) - ((⌊(z : ℚ)⌋ : ℤ) : ℚ) < 1/2 then ⌊(z : ℚ)⌋
    else if ((z : ℚ)) - ((⌊(z : ℚ)⌋ : ℤ) : ℚ) > 1/2 then ⌊(z : ℚ)⌋ + 1
    else if ⌊(z : ℚ)⌋ % 2 = 0 then ⌊(z : ℚ)⌋ else ⌊(z : ℚ)⌋ + 1) = z
  rw [Int.floor_intCast]
  rw [if_pos (by norm_num : (z : ℚ) - ((z : ℤ) : ℚ) < 1/2)]

theorem roundHalfEven_zero : roundHalfEven 0 = 0 := by
  have h := roundHalfEven_intCast 0
  norm_num at h
  exact h

theorem roundHalfEven_ten : roundHalfEven 10 = 10 := by
  have h := roundHalfEven_intCast 10
  norm_num at h
  exact h

theorem fmtFixed_nonneg_eval {q : ℚ} {z : ℤ} (hmul : q * 10 = ((z : ℤ) : ℚ)) (hq : ¬ q < 0) :
    fmtFixed q = "" ++ toString (z.natAbs / 10) ++ "." ++ toString (z.natAbs % 10) := by
  unfold fmtFixed
  rw [hmul, roundHalfEven_intCast, if_neg hq]

theorem fmtFixedTwo_nonneg_eval {q : ℚ} {z : ℤ} (hmul : q * 100 = ((z : ℤ) : ℚ))
    (hq : ¬ q < 0) :
    fmtFixedTwo q = "" ++ toString (z.natAbs / 100) ++ "."
      ++ toString (z.natAbs % 100 / 10) ++ toString (z.natAbs % 10) := by
  unfold fmtFixedTwo
  rw [hmul, roundHalfEven_intCast, if_neg hq]

theorem fmtFixed_zero : fmtFixed 0 = "0.0" := by
  rw [fmtFixed_nonneg_eval (z := 0) (by norm_num) (by norm_num)]
  decide

theorem fmtFixed_two : fmtFixed 2 = "2.0" := by
  rw [fmtFixed_nonneg_eval (z := 20) (by norm_num) (by norm_num)]
  decide

theorem fmtFixed_ten : fmtFixed 10 = "10.0" := by
  rw [fmtFixed_nonneg_eval (z := 100) (by norm_num) (by norm_num)]
  decide

theorem fmtFixedTwo_two : fmtFixedTwo 2 = "2.00" := by
  rw [fmtFixedTwo_nonneg_eval (z := 200) (by norm_num) (by norm_num)]
  decide

theorem fmtFixedTwo_ten : fmtFixedTwo 10 = "10.00" := by
  rw [fmtFixedTwo_nonneg_eval (z := 1000) (by norm_num) (by norm_num)]
  decide

theorem forecast_sample : ForecastAgent.forecast 4 sampleState = [(1, 0)] := by
  simp [ForecastAgent.forecast, sampleState, sampleProduct, ForecastAgent.avg_sales]

theorem build_plan_sample :
    ReplenishmentAgent.build_plan (3/2) sampleState (ForecastAgent.forecast 4 sampleState)
      = [{ product_id := 1, name := "A", avg_weekly_sales := 0, current_stock := 5,
           forecast_next_week := 0, suggested_order_qty := 0, reason := slowMovingReason }] := by
  rw [forecast_sample]
  simp only [ReplenishmentAgent.build_plan, ReplenishmentAgent.buildLine, sampleState,
    sampleProduct, List.map_cons, List.map_nil]
  norm_num [dictGetD, currentStockOf, pyRound2, roundHalfEven_zero]

theorem run_plan_sample : run_plan 4 (3/2) 25000 sampleState = [sampleLine] := by
  unfold run_plan
  show BudgetAgent.apply 25000
    (ReplenishmentAgent.build_plan (3/2) sampleState (ForecastAgent.forecast 4 sampleState))
    sampleState.products = [sampleLine]
  rw [build_plan_sample]
  have hidx : price_index [sampleProduct] 1 = 5 := by
    simp [price_index, sampleProduct]
  have hst : sampleState.products = [sampleProduct] := rfl
  rw [hst]
  unfold BudgetAgent.apply
  have htot : totalCostOf [sampleProduct]
      [{ product_id := 1, name := "A", avg_weekly_sales := 0, current_stock := 5,
         forecast_next_week := 0, suggested_order_qty := 0, reason := slowMovingReason }] = 0 := by
    simp [totalCostOf, pricedOf, priceLine, hidx]
  rw [htot]
  rw [if_pos (by norm_num : (0 : ℚ) ≤ 25000)]
  simp [pricedOf, priceLine, hidx, sampleLine]

theorem forecast_negState : ForecastAgent.forecast 4 negState = [(1, 0)] := by
  simp [ForecastAgent.forecast, negState, negProduct, ForecastAgent.avg_sales]

theorem build_plan_negState :
    ReplenishmentAgent.build_plan (3/2) negState (ForecastAgent.forecast 4 negState)
      = [{ product_id := 1, name := "A", avg_weekly_sales := 0, current_stock := 0,
           forecast_next_week := 0, suggested_order_qty := 10, reason := mkReason 0 0 10 }] := by
  rw [forecast_negState]
  simp only [ReplenishmentAgent.build_plan, ReplenishmentAgent.buildLine, negState,
    negProduct, List.map_cons, List.map_nil]
  have hreq : required_stock (3/2) 10 100 0 = 10 := by
    unfold required_stock
    rw [show max (((10 : ℤ)) : ℚ) ((0 : ℚ) * (3/2)) = 10 by
      rw [max_eq_left (by norm_num)]
      norm_num]
    rw [if_neg (by norm_num)]
  norm_num [dictGetD, currentStockOf, pyRound2, roundHalfEven_zero, hreq, roundHalfEven_ten]
  decide

theorem run_plan_negState_eval : run_plan 4 (3/2) 25000 negState = [negLine] := by
  unfold run_plan
  show BudgetAgent.apply 25000
    (ReplenishmentAgent.build_plan (3/2) negState (ForecastAgent.forecast 4 negState))
    negState.products = [negLine]
  rw [build_plan_negState]
  have hidx : price_index [negProduct] 1 = -5 := by
    simp [price_index, negProduct]
  have hst : negState.products = [negProduct] := rfl
  rw [hst]
  unfold BudgetAgent.apply
  have htot : totalCostOf [negProduct]
      [{ product_id := 1, name := "A", avg_weekly_sales := 0, current_stock := 0,
         forecast_next_week := 0, suggested_order_qty := 10, reason := mkReason 0 0 10 }]
      = -50 := by
    simp [totalCostOf, pricedOf, priceLine, hidx]
    norm_num
  rw [htot]
  rw [if_pos (by norm_num : (-50 : ℚ) ≤ 25000)]
  simp [pricedOf, priceLine, hidx, negLine]
  norm_num

theorem noStock_not_slow :
    ¬ (dictGetD [(1, 2)] sampleProduct.product_id 0 < 1
        ∧ currentStockOf noStockState sampleProduct.product_id > 0) := by
  have hdict : dictGetD [(1, 2)] sampleProduct.product_id 0 = 2 := by
    simp [dictGetD, sampleProduct]
  rw [hdict]
  rintro ⟨h1, _⟩
  norm_num at h1

/-- C7 is false on the code: at a concrete product that is not slow-moving
the rationale carries one decimal place, so it differs from the sentence
the spec prescribes with two-decimal precision. -/
theorem buildLine_reason_not_two_decimal :
    (ReplenishmentAgent.buildLine (3/2) noStockState [(1, 2)] sampleProduct).reason
      ≠ reasonTwoDec (dictGetD [(1, 2)] sampleProduct.product_id 0)
          (currentStockOf noStockState sampleProduct.product_id)
          (required_stock (3/2) sampleProduct.min_stock sampleProduct.max_stock
            (dictGetD [(1, 2)] sampleProduct.product_id 0)) := by
  have hdict : dictGetD [(1, 2)] sampleProduct.product_id 0 = 2 := by
    simp [dictGetD, sampleProduct]
  have hcur : currentStockOf noStockState sampleProduct.product_id = 0 := by
    simp [currentStockOf, noStockState]
  have hreq : required_stock (3/2) sampleProduct.min_stock sampleProduct.max_stock 2 = 10 := by
    show required_stock (3/2) 10 100 2 = 10
    unfold required_stock
    rw [show max (((10 : ℤ)) : ℚ) ((2 : ℚ) * (3/2)) = 10 by
      rw [max_eq_left (by norm_num)]
      norm_num]
    rw [if_neg (by norm_num)]
  rw [buildLine_reason_eq _ _ _ _ noStock_not_slow, hdict, hcur, hreq]
  unfold mkReason reasonTwoDec
  rw [fmtFixed_two, fmtFixed_ten, fmtFixedTwo_two, fmtFixedTwo_ten]
  decide

/-- C7 as amended: the rationale of a product that is not slow-moving
reports forecast, current stock and target stock with one-decimal
precision: it equals the one-decimal template and the formatter emits
exactly one digit after the point on every value. -/
theorem buildLine_reason_one_decimal (sf : ℚ) (state : State) (f : List (ℕ × ℚ)) (p : Product)
    (h : ¬ (dictGetD f p.product_id 0 < 1 ∧ currentStockOf state p.product_id > 0)) :
    (ReplenishmentAgent.buildLine sf state f p).reason
        = mkReason (dictGetD f p.product_id 0) (currentStockOf state p.product_id)
            (required_stock sf p.min_stock p.max_stock (dictGetD f p.product_id 0))
      ∧ fracDigits (fmtFixed (dictGetD f p.product_id 0)) = 1
      ∧ fracDigits (fmtFixed (required_stock sf p.min_stock p.max_stock
          (dictGetD f p.product_id 0))) = 1 :=
  ⟨buildLine_reason_eq sf state f p h, fracDigits_fmtFixed _, fracDigits_fmtFixed _⟩

/-- C7 witness: the amended statement at a concrete non-slow product. -/
theorem buildLine_reason_one_decimal_witness :
    ¬ (dictGetD [(1, 2)] sampleProduct.product_id 0 < 1
        ∧ currentStockOf noStockState sampleProduct.product_id > 0)
      ∧ ((ReplenishmentAgent.buildLine (3/2) noStockState [(1, 2)] sampleProduct).reason
            = mkReason (dictGetD [(1, 2)] sampleProduct.product_id 0)
                (currentStockOf noStockState sampleProduct.product_id)
                (required_stock (3/2) sampleProduct.min_stock sampleProduct.max_stock
                  (dictGetD [(1, 2)] sampleProduct.product_id 0))
          ∧ fracDigits (fmtFixed (dictGetD [(1, 2)] sampleProduct.product_id 0)) = 1
          ∧ fracDigits (fmtFixed (required_stock (3/2) sampleProduct.min_stock
              sampleProduct.max_stock (dictGetD [(1, 2)] sampleProduct.product_id 0))) = 1) :=
  ⟨noStock_not_slow,
    buildLine_reason_one_decimal (3/2) noStockState [(1, 2)] sampleProduct noStock_not_slow⟩

/-- C9 is false on the code as stated: with a negative catalog cost price
(no precondition excludes it) the pipeline returns a line whose line_cost
is negative. -/
theorem run_plan_negative_line_cost :
    (run_plan 4 (3/2) 25000 negState).headI ∈ run_plan 4 (3/2) 25000 negState
      ∧ ((run_plan 4 (3/2) 25000 negState).headI).line_cost < 0 := by
  rw [run_plan_negState_eval]
  refine ⟨by simp, ?_⟩
  show negLine.line_cost < 0
  norm_num [negLine]

/-- C9 as amended: when every catalog cost price is nonnegative, every
line of the final plan has nonnegative line cost; the order quantity is
nonnegative unconditionally. -/
theorem run_plan_nonneg (max_weeks : ℕ) (sf b : ℚ) (state : State)
    (hc : ∀ p ∈ state.products, 0 ≤ p.cost_price)
    (o : BudgetLine) (ho : o ∈ run_plan max_weeks sf b state) :
    0 ≤ o.line_cost ∧ 0 ≤ (o.suggested_order_qty : ℤ) := by
  unfold run_plan at ho
  obtain ⟨r, hr, hpid, hor⟩ := apply_mem_spec _ _ _ o ho
  refine ⟨?_, Int.natCast_nonneg _⟩
  rcases hor with ⟨hq, hcost⟩ | ⟨hq, hcost⟩
  · rw [hcost]
    exact mul_nonneg (price_index_nonneg hc r.product_id) (Nat.cast_nonneg _)
  · rw [hcost]

/-- C9 witness: the amended statement at a concrete snapshot. -/
theorem run_plan_nonneg_witness :
    0 ≤ sampleProduct.cost_price
      ∧ 0 ≤ ((run_plan 4 (3/2) 25000 sampleState).headI).line_cost
      ∧ 0 ≤ (((run_plan 4 (3/2) 25000 sampleState).headI).suggested_order_qty : ℤ) := by
  have hc : ∀ p ∈ sampleState.products, 0 ≤ p.cost_price := by
    intro p hp
    have hps : p = sampleProduct := by simpa [sampleState] using hp
    rw [hps]
    norm_num [sampleProduct]
  have hm : (run_plan 4 (3/2) 25000 sampleState).headI ∈ run_plan 4 (3/2) 25000 sampleState := by
    rw [run_plan_sample]
    simp
  have h := run_plan_nonneg 4 (3/2) 25000 sampleState hc _ hm
  exact ⟨by norm_num [sampleProduct], h.1, h.2⟩

/-- C2 witness: the slow-mover suppression at a concrete snapshot. -/
theorem run_plan_slow_mover_witness :
    ForecastAgent.avg_sales 4 (sampleState.sales_by_product sampleProduct.product_id) < 1
      ∧ 0 < currentStockOf sampleState sampleProduct.product_id
      ∧ ((run_plan 4 (3/2) 25000 sampleState).headI).suggested_order_qty = 0 := by
  have h1 : ForecastAgent.avg_sales 4 (sampleState.sales_by_product sampleProduct.product_id)
      < 1 := by
    norm_num [ForecastAgent.avg_sales, sampleState]
  have h2 : 0 < currentStockOf sampleState sampleProduct.product_id := by
    norm_num [currentStockOf, sampleState, sampleProduct]
  have hm : (run_plan 4 (3/2) 25000 sampleState).headI ∈ run_plan 4 (3/2) 25000 sampleState := by
    rw [run_plan_sample]
    simp
  have hpid : ((run_plan 4 (3/2) 25000 sampleState).headI).product_id
      = sampleProduct.product_id := by
    rw [run_plan_sample]
    rfl
  exact ⟨h1, h2, run_plan_slow_mover 4 (3/2) 25000 sampleState sampleProduct
    (by simp [sampleState]) h1 h2 _ hm hpid⟩

/-- C10 witness: the max-stock bound at a concrete snapshot. -/
theorem buildLine_qty_le_max_stock_witness :
    (0 : ℤ) ≤ sampleProduct.min_stock
      ∧ sampleProduct.min_stock ≤ sampleProduct.max_stock
      ∧ 0 ≤ currentStockOf sampleState sampleProduct.product_id
      ∧ ((ReplenishmentAgent.buildLine (3/2) sampleState
            (ForecastAgent.forecast 4 sampleState) sampleProduct).suggested_order_qty : ℤ)
          ≤ sampleProduct.max_stock := by
  have hcur : 0 ≤ currentStockOf sampleState sampleProduct.product_id := by
    norm_num [currentStockOf, sampleState, sampleProduct]
  exact ⟨by norm_num [sampleProduct], by norm_num [sampleProduct], hcur,
    buildLine_qty_le_max_stock (3/2) sampleState (ForecastAgent.forecast 4 sampleState)
      sampleProduct (by norm_num [sampleProduct]) (by norm_num [sampleProduct]) hcur⟩

/-- C3 witness: the order-quantity formula at a concrete product. -/
theorem buildLine_qty_formula_witness :
    ¬ (dictGetD [(1, 2)] sampleProduct.product_id 0 < 1
        ∧ currentStockOf noStockState sampleProduct.product_id > 0)
      ∧ ((ReplenishmentAgent.buildLine (3/2) noStockState [(1, 2)]
              sampleProduct).suggested_order_qty
            = (max (roundHalfEven (min (sampleProduct.max_stock : ℚ)
                  (max (sampleProduct.min_stock : ℚ)
                    (dictGetD [(1, 2)] sampleProduct.product_id 0 * (3/2)))
                - (currentStockOf noStockState sampleProduct.product_id : ℚ))) 0).toNat
          ∧ required_stock (3/2) 10 50 1000 = 50
          ∧ (noStockState.stock_by_product sampleProduct.product_id = none
              → currentStockOf noStockState sampleProduct.product_id = 0)) :=
  ⟨noStock_not_slow,
    buildLine_qty_formula (3/2) noStockState [(1, 2)] sampleProduct noStock_not_slow⟩

/-- C4 witness: the forecast contract at a concrete snapshot with history. -/
theorem forecast_mean_witness :
    sampleProduct ∈ salesState.products
      ∧ ((salesState.sales_by_product sampleProduct.product_id = []
            → dictGetD (ForecastAgent.forecast 4 salesState) sampleProduct.product_id 0 = 0)
        ∧ (salesState.sales_by_product sampleProduct.product_id ≠ [] → 0 < 4
            → dictGetD (ForecastAgent.forecast 4 salesState) sampleProduct.product_id 0
                  * (((salesState.sales_by_product sampleProduct.product_id).take 4).length : ℚ)
                = ((((salesState.sales_by_product sampleProduct.product_id).take 4).sum : ℤ)
                    : ℚ))) :=
  ⟨by simp [salesState], forecast_mean 4 salesState sampleProduct (by simp [salesState])⟩

/-- C5 witness: the within-budget frame condition at a concrete plan. -/
theorem apply_within_budget_frame_witness :
    totalCostOf [sampleProduct] [withinPlanLine] ≤ 100
      ∧ List.Forall₂ (fun (r : PlanLine) (o : BudgetLine) =>
          o.toPlanLine = r ∧ o.budget_note = some "Within weekly budget"
            ∧ o.unit_cost = price_index [sampleProduct] r.product_id
            ∧ o.line_cost = price_index [sampleProduct] r.product_id
                * (r.suggested_order_qty : ℚ))
        [withinPlanLine] (BudgetAgent.apply 100 [withinPlanLine] [sampleProduct]) := by
  have hidx : price_index [sampleProduct] 1 = 5 := by
    simp [price_index, sampleProduct]
  have h : totalCostOf [sampleProduct] [withinPlanLine] ≤ 100 := by
    simp [totalCostOf, pricedOf, priceLine, withinPlanLine, hidx]
    norm_num
  exact ⟨h, apply_within_budget_frame 100 _ _ h⟩

/-- C6 witness: the over-budget characterization at a concrete plan. -/
theorem apply_over_budget_spec_witness :
    (25 : ℚ) < totalCostOf [sampleProduct] [overPlanLine]
      ∧ ∃ k ≤ ((pricedOf [sampleProduct] [overPlanLine]).mergeSort budgetLE).length,
          BudgetAgent.apply 25 [overPlanLine] [sampleProduct]
              = applyDrops k ((pricedOf [sampleProduct] [overPlanLine]).mergeSort budgetLE)
            ∧ (∀ i, i < k
                → prefixDropCost ((pricedOf [sampleProduct] [overPlanLine]).mergeSort budgetLE) i
                  < totalCostOf [sampleProduct] [overPlanLine] - 25)
            ∧ (k < ((pricedOf [sampleProduct] [overPlanLine]).mergeSort budgetLE).length
                → totalCostOf [sampleProduct] [overPlanLine] - 25
                    ≤ prefixDropCost
                        ((pricedOf [sampleProduct] [overPlanLine]).mergeSort budgetLE) k)
            ∧ List.Pairwise (fun a b : BudgetLine => a.avg_weekly_sales ≤ b.avg_weekly_sales)
                (BudgetAgent.apply 25 [overPlanLine] [sampleProduct])
            ∧ ((pricedOf [sampleProduct] [overPlanLine]).mergeSort budgetLE).Perm
                (pricedOf [sampleProduct] [overPlanLine])
            ∧ ∀ a b : BudgetLine, a.avg_weekly_sales ≤ b.avg_weekly_sales
                → List.Sublist [a, b] (pricedOf [sampleProduct] [overPlanLine])
                → List.Sublist [a, b]
                    ((pricedOf [sampleProduct] [overPlanLine]).mergeSort budgetLE) := by
  have hidx : price_index [sampleProduct] 1 = 5 := by
    simp [price_index, sampleProduct]
  have h : (25 : ℚ) < totalCostOf [sampleProduct] [overPlanLine] := by
    simp [totalCostOf, pricedOf, priceLine, overPlanLine, hidx]
    norm_num
  exact ⟨h, apply_over_budget_spec 25 [overPlanLine] [sampleProduct] h⟩
